import Mathlib

/-!
# RayCloudSim simulation kernel: a shallow embedding

This file embeds the resource-accounting core of the RayCloudSim simulator
(`core/utils.py`, `core/link.py`, `core/node.py`, `core/task.py`,
`core/infrastructure.py`, `core/env.py`) as executable Lean definitions and
proves, or refutes, the frozen claims about the natural-language
specification.

Numeric quantities (bandwidths, CPU frequencies, times, energy) are modelled
as rationals.  Fallible Python code (methods that `raise`) is modelled with
`Option`/product-with-error results.  Python object mutation is modelled by
explicit state passing: each method returns the updated object(s).
-/

namespace RayCloudSim

/-- Source `core/utils.py`, class `DataFlow`: a reservation at a fixed bit rate.
The `links` field of the Python object (the allocated path) is carried by the
callers in this embedding; a flow itself is identified by its bit rate. -/
structure DataFlow where
  bit_rate : ℚ
deriving DecidableEq, Repr

/-- Source `core/link.py`, class `Link`: a unidirectional channel.  The `src`/`dst`
node references and the distance field play no role in the claims; the fields
that the resource accounting reads and writes are kept. -/
structure Link where
  max_bandwidth : ℚ
  base_latency : ℚ
  free_bandwidth : ℚ
  data_flows : List DataFlow
deriving DecidableEq, Repr

/-- Source `Link.__init__`: `free_bandwidth = max_bandwidth`, no data flows. -/
def Link.mk0 (max_bandwidth base_latency : ℚ) : Link :=
  { max_bandwidth := max_bandwidth, base_latency := base_latency,
    free_bandwidth := max_bandwidth, data_flows := [] }

/-- Source `Link._reserve_bandwidth`: fails (raises `ValueError`) when
`free_bandwidth < bandwidth`, else decrements `free_bandwidth`. -/
def Link.reserve_bandwidth (l : Link) (bandwidth : ℚ) : Option Link :=
  if l.free_bandwidth < bandwidth then none
  else some { l with free_bandwidth := l.free_bandwidth - bandwidth }

/-- Source `Link._release_bandwidth`: fails when `free_bandwidth + bandwidth`
would exceed `max_bandwidth`, else increments `free_bandwidth`. -/
def Link.release_bandwidth (l : Link) (bandwidth : ℚ) : Option Link :=
  if l.max_bandwidth < l.free_bandwidth + bandwidth then none
  else some { l with free_bandwidth := l.free_bandwidth + bandwidth }

/-- Source `Link._add_data_flow`: reserve the flow's bit rate, then append the flow
to `data_flows`. -/
def Link.add_data_flow (l : Link) (df : DataFlow) : Option Link :=
  (l.reserve_bandwidth df.bit_rate).map fun l' =>
    { l' with data_flows := l'.data_flows ++ [df] }

/-- Source `Link._remove_data_flow`: release the flow's bit rate, then
`list.remove` the flow (fails when the flow is absent, like Python's
`ValueError` from `list.remove`). -/
def Link.remove_data_flow (l : Link) (df : DataFlow) : Option Link :=
  match l.release_bandwidth df.bit_rate with
  | none => none
  | some l' =>
      if df ∈ l'.data_flows then
        some { l' with data_flows := l'.data_flows.erase df }
      else none

/-- Source `Link.reset`: restore the full bandwidth and clear the data flows. -/
def Link.reset (l : Link) : Link :=
  { l with free_bandwidth := l.max_bandwidth, data_flows := [] }

/-- Sum of the bit rates of the data flows currently on a link. -/
def Link.flowSum (l : Link) : ℚ :=
  (l.data_flows.map DataFlow.bit_rate).sum

/-- Source `core/task.py`, class `Task`.  The destination `Node` reference is
modelled by the destination id (`dst_id`) and name (`dst_name`); in the
Python source `dst`, `dst_id` and `dst_name` are always written together. -/
structure Task where
  id : ℕ
  task_size : ℚ
  cycles_per_bit : ℚ
  trans_bit_rate : ℚ
  ddl : ℚ
  cpu_freq : ℚ
  trans_time : ℚ
  wait_time : ℚ
  exe_time : ℚ
  src_name : String
  dst_id : Option ℕ
  dst_name : Option String
  exe_cnt : ℕ
deriving DecidableEq, Repr

/-- Source `Task.__init__`. -/
def Task.mk0 (id : ℕ) (task_size cycles_per_bit trans_bit_rate : ℚ)
    (src_name : String) (ddl : ℚ) : Task :=
  { id := id, task_size := task_size, cycles_per_bit := cycles_per_bit,
    trans_bit_rate := trans_bit_rate, ddl := ddl, cpu_freq := -1,
    trans_time := -1, wait_time := -1, exe_time := -1,
    src_name := src_name, dst_id := none, dst_name := none, exe_cnt := 0 }

/-- Source `core/node.py`, class `Buffer`: a FIFO queue of tasks with a bit
capacity.  The head of `buffer` is the front of the queue. -/
structure Buffer where
  max_size : ℚ
  free_size : ℚ
  buffer : List Task
  task_ids : List ℕ
deriving DecidableEq, Repr

/-- Source `Buffer.__init__`. -/
def Buffer.mk0 (max_size : ℚ) : Buffer :=
  { max_size := max_size, free_size := max_size, buffer := [], task_ids := [] }

/-- Source `Buffer.append`: accepts the task iff `task.task_size <= free_size`,
charging the free size and enqueueing at the back; otherwise raises
`InsufficientBufferError` (modelled as `none`). -/
def Buffer.appendTask (b : Buffer) (t : Task) : Option Buffer :=
  if t.task_size ≤ b.free_size then
    some { b with free_size := b.free_size - t.task_size,
                  task_ids := b.task_ids ++ [t.id],
                  buffer := b.buffer ++ [t] }
  else none

/-- Source `Buffer.pop`: dequeues from the front (`popleft`), refunding the task's
size; returns `none` and leaves the buffer unchanged when empty. -/
def Buffer.pop (b : Buffer) : Option Task × Buffer :=
  match b.buffer with
  | [] => (none, b)
  | t :: rest =>
      (some t, { b with buffer := rest, task_ids := b.task_ids.erase t.id,
                        free_size := b.free_size + t.task_size })

/-- Source `Buffer.reset`. -/
def Buffer.reset (b : Buffer) : Buffer :=
  { b with free_size := b.max_size, buffer := [], task_ids := [] }

/-- Source `core/node.py`, class `Node`.  The location field plays no role in the
claims.  The energy-coefficient dictionary `{'idle': .., 'exe': ..}` is
modelled by two fields. -/
structure Node where
  id : ℕ
  name : String
  max_cpu_freq : ℚ
  free_cpu_freq : ℚ
  task_buffer : Buffer
  energy_consumption : ℚ
  idle_energy_coef : ℚ
  exe_energy_coef : ℚ
  active_tasks : List Task
  active_task_ids : List ℕ
  total_cpu_freq : ℚ
  clock : ℕ
deriving DecidableEq, Repr

/-- Source `Node.__init__`: fully free CPU, empty buffer, zero counters. -/
def Node.mk0 (id : ℕ) (name : String) (max_cpu_freq max_buffer_size : ℚ)
    (idle_energy_coef exe_energy_coef : ℚ) : Node :=
  { id := id, name := name, max_cpu_freq := max_cpu_freq,
    free_cpu_freq := max_cpu_freq, task_buffer := Buffer.mk0 max_buffer_size,
    energy_consumption := 0, idle_energy_coef := idle_energy_coef,
    exe_energy_coef := exe_energy_coef, active_tasks := [],
    active_task_ids := [], total_cpu_freq := 0, clock := 0 }

/-- Source `Node._reserve_resource`: succeeds iff `free_cpu_freq > 0`; assigns the
node's free frequency to the task's `cpu_freq` and sets `free_cpu_freq = 0`.
Returns the updated node and task. -/
def Node.reserve_resource (n : Node) (t : Task) : Option (Node × Task) :=
  if 0 < n.free_cpu_freq then
    some ({ n with free_cpu_freq := 0 }, { t with cpu_freq := n.free_cpu_freq })
  else none

/-- Source `Node._release_resource`: succeeds iff `free_cpu_freq == 0`; restores
`free_cpu_freq = max_cpu_freq`. -/
def Node.release_resource (n : Node) : Option Node :=
  if n.free_cpu_freq = 0 then some { n with free_cpu_freq := n.max_cpu_freq }
  else none

/-- Source `Node._add_task`: reserve the CPU, then append the task to the active
lists.  Returns the updated node and the task with its `cpu_freq` set. -/
def Node.add_task (n : Node) (t : Task) : Option (Node × Task) :=
  (n.reserve_resource t).map fun p =>
    ({ p.1 with active_tasks := p.1.active_tasks ++ [p.2],
                active_task_ids := p.1.active_task_ids ++ [p.2.id] }, p.2)

/-- Source `Node._remove_task`: release the CPU, then `list.remove` the task from
the active lists (fails when absent, like Python's `ValueError`). -/
def Node.remove_task (n : Node) (t : Task) : Option Node :=
  match n.release_resource with
  | none => none
  | some n' =>
      if t ∈ n'.active_tasks then
        some { n' with active_tasks := n'.active_tasks.erase t,
                       active_task_ids := n'.active_task_ids.erase t.id }
      else none

/-- Source `Node.reset`: full CPU back, zero energy, buffer reset, active lists
cleared, counters zeroed. -/
def Node.reset (n : Node) : Node :=
  { n with free_cpu_freq := n.max_cpu_freq, energy_consumption := 0,
           task_buffer := n.task_buffer.reset, active_tasks := [],
           active_task_ids := [], total_cpu_freq := 0, clock := 0 }

/-! ## Task allocation (`core/task.py`, `Task.allocate` and helpers) -/

/-- Source `Task._pre_allocate_dst`: raises `ValueError` when the task is already
placed (`self.dst is not None`); otherwise records the destination without
touching the node. -/
def Task.pre_allocate_dst (t : Task) (n : Node) : Option Task :=
  match t.dst_id with
  | some _ => none
  | none => some { t with dst_id := some n.id, dst_name := some n.name }

/-- Source `Task._allocate_dst`: raises `ValueError` when already placed; otherwise
records the destination and calls `Node._add_task`. -/
def Task.allocate_dst (t : Task) (n : Node) : Option (Task × Node) :=
  match t.dst_id with
  | some _ => none
  | none =>
      let t1 := { t with dst_id := some n.id, dst_name := some n.name }
      (n.add_task t1).map fun p => (p.2, p.1)

/-- Source `Task.allocate(now, node, pre_allocate=True)` (case 1 of the source):
stamp `wait_time` with the enqueue instant `now`, then pre-allocate the
destination.  Note the stamp is written before the already-placed check. -/
def Task.allocatePre (t : Task) (n : Node) (now : ℚ) : Option Task :=
  Task.pre_allocate_dst { t with wait_time := now } n

/-- Source `Task.allocate(now)` (case 2 of the source, reactivation of a
pre-allocated task): rewrite `wait_time` to `(now - wait_time) + trans_time`,
add the task to its destination node (`_post_allocate_dst`), then compute
`exe_time = task_size * cycles_per_bit / cpu_freq` with the freshly assigned
`cpu_freq`. -/
def Task.allocateReactive (t : Task) (n : Node) (now : ℚ) : Option (Task × Node) :=
  let t1 := { t with wait_time := (now - t.wait_time) + t.trans_time }
  (n.add_task t1).map fun p =>
    ({ p.2 with exe_time := p.2.task_size * p.2.cycles_per_bit / p.2.cpu_freq }, p.1)

/-- Source `Task.allocate(now, node)` (case 3 of the source, immediate execution):
`wait_time = trans_time`, `_allocate_dst(node)`, then compute `exe_time`. -/
def Task.allocateImmediate (t : Task) (n : Node) : Option (Task × Node) :=
  let t1 := { t with wait_time := t.trans_time }
  (t1.allocate_dst n).map fun p =>
    ({ p.1 with exe_time := p.1.task_size * p.1.cycles_per_bit / p.1.cpu_freq }, p.2)

/-- Source `core/env.py`, `user_defined_info`: recorded with every completed task;
`ddl_ok` is whether `wait_time + exe_time ≤ ddl`. -/
def user_defined_info (t : Task) : Bool :=
  t.wait_time + t.exe_time ≤ t.ddl

/-! ## Shortest links with wireless endpoints
(`core/infrastructure.py`, `Infrastructure._get_shortest_wireless_links`) -/

/-- An element of the list returned by `get_shortest_links`: either a real
`Link` object or a synthetic wireless hop, which in the source is a plain
`(srcName, dstName)` tuple of node names. -/
inductive PathElem where
  | link (l : Link)
  | token (src dst : String)
deriving DecidableEq, Repr

/-- Whether a path element is a real (wired) link. -/
def PathElem.isLink : PathElem → Bool
  | .link _ => true
  | .token _ _ => false

/-- Wireless-routing view of a node: `flag_only_wireless` and the name of
`default_dst_node` (the wired anchor), as used by
`_get_shortest_wireless_links`. -/
structure WNode where
  name : String
  flag_only_wireless : Bool
  default_dst_node : Option String
deriving DecidableEq, Repr

/-- Source `nx.utils.pairwise(path)` mapped through the edge lookup
`graph.edges[a, b, 0]["data"]`: the wired links along a node-name path. -/
def pairwiseLinks (lookup : String → String → Link) : List String → List PathElem
  | [] => []
  | [_] => []
  | a :: b :: rest => .link (lookup a b) :: pairwiseLinks lookup (b :: rest)

/-- Source `Infrastructure._get_shortest_wireless_links`, with the external
`nx.shortest_path` results supplied as arguments (`networkx` is an external
collaborator): returns the mixed list of synthetic wireless-hop tokens and
wired links, or fails with `IsolatedWirelessNode`. -/
def get_shortest_wireless_links (src dst : WNode)
    (lookup : String → String → Link) (shortest_path : List String) :
    Option (List PathElem) :=
  match src.flag_only_wireless, src.default_dst_node,
        dst.flag_only_wireless, dst.default_dst_node with
  | true, some sAnchor, true, some dAnchor =>
      some ((.token src.name sAnchor :: pairwiseLinks lookup shortest_path) ++
            [.token dAnchor dst.name])
  | true, some sAnchor, _, _ =>
      some (.token src.name sAnchor :: pairwiseLinks lookup shortest_path)
  | _, _, true, some dAnchor =>
      some (pairwiseLinks lookup shortest_path ++ [.token dAnchor dst.name])
  | _, _, _, _ => none

/-! ## Transmission handling (`core/env.py`, `Env._handle_task_transmission`) -/

/-- The base-latency accumulation loop of `_handle_task_transmission`:
`for link in links_in_path: trans_base_latency += link.base_latency`.
The loop has no `isinstance` guard, so a synthetic wireless token (a tuple)
raises `AttributeError` (modelled as `none`). -/
def pathBaseLatencySum : List PathElem → Option ℚ
  | [] => some 0
  | .link l :: rest => (pathBaseLatencySum rest).map (l.base_latency + ·)
  | .token _ _ :: _ => none

/-- The transmission-time computation of `_handle_task_transmission`:
`trans_time = trans_base_latency + (task_size / trans_bit_rate) * len(links_in_path)`,
where `len(links_in_path)` counts every element of the returned path,
synthetic tokens included; `none` when the latency loop raises. -/
def transTimeOf (path : List PathElem) (task_size trans_bit_rate : ℚ) : Option ℚ :=
  (pathBaseLatencySum path).map fun lat =>
    lat + task_size / trans_bit_rate * path.length

/-- The claim's transmission-time formula, written from the specification's
words: the base latencies of the *wired* links plus `taskSize/transBitRate`
times the number of *wired* links, synthetic tokens contributing zero. -/
def specTransTime (path : List PathElem) (task_size trans_bit_rate : ℚ) : ℚ :=
  (path.map fun e => match e with | .link l => l.base_latency | .token _ _ => 0).sum +
    task_size / trans_bit_rate * (path.filter PathElem.isLink).length

/-! ## DataFlow placement on a path
(`core/env.py` congestion check + `core/utils.py`, `DataFlow.allocate`).
The network's links are modelled as a list; a path is a list of indices into
it, so that a link shared between the check and the allocation is one piece
of state. -/

/-- Source `DataFlow.allocate(links)`: add the flow to every link of the path in
order.  On a `ValueError` from `Link._reserve_bandwidth` the Python
exception propagates with the earlier links left reserved, so the partial
state is returned together with a failure flag. -/
def allocateFlow (df : DataFlow) : List Link → List ℕ → List Link × Bool
  | links, [] => (links, true)
  | links, i :: rest =>
      match links[i]? with
      | none => (links, false)
      | some l =>
          match l.add_data_flow df with
          | none => (links, false)
          | some l' => allocateFlow df (links.set i l') rest

/-- The read-only congestion check of `Env._handle_task_transmission`:
whether some link of the path has `free_bandwidth < trans_bit_rate`. -/
def congested (links : List Link) (path : List ℕ) (trans_bit_rate : ℚ) : Bool :=
  path.any fun i =>
    match links[i]? with
    | some l => decide (l.free_bandwidth < trans_bit_rate)
    | none => false

/-- Source `Env._handle_task_transmission`, bandwidth part: first the read-only
congestion check (`if link.free_bandwidth < task.trans_bit_rate` for every
link of the path, raising `NetCongestionError` and changing nothing), then
`DataFlow.allocate` on the whole path. -/
def handleTransmissionBandwidth (links : List Link) (path : List ℕ)
    (trans_bit_rate : ℚ) : Option String × List Link :=
  if congested links path trans_bit_rate
  then (some "NetCongestionError", links)
  else
    let r := allocateFlow ⟨trans_bit_rate⟩ links path
    if r.2 then (none, r.1) else (some "ValueError", r.1)

/-! ## Energy tick (`core/env.py`, `Env._track_node_energy`) -/

/-- One iteration of the `_track_node_energy` loop (fires once per
`timeout(1)` of virtual time):
`energy += coef_idle`; `energy += coef_exe * (max - free)^3`;
`total_cpu_freq += max - free`; `clock += 1`. -/
def track_node_energy_tick (n : Node) : Node :=
  { n with
    energy_consumption := n.energy_consumption + n.idle_energy_coef +
      n.exe_energy_coef * (n.max_cpu_freq - n.free_cpu_freq) ^ 3,
    total_cpu_freq := n.total_cpu_freq + (n.max_cpu_freq - n.free_cpu_freq),
    clock := n.clock + 1 }

/-! ## The kernel's per-run bookkeeping (`core/env.py`, class `Env`) -/

/-- The task-failure record the logger stores for a failed submission:
`(1, [errorName], (srcName, dstName))`. -/
structure FailRecord where
  status_code : ℕ
  info : List String
  src_name : String
  dst_name : Option String
deriving DecidableEq, Repr

/-- The bookkeeping state of `Env` that the claims touch: the active-task
id set (keys of `active_tasks`), the processed-task counter `task_count`,
and the logger's `task_info` map (a Python dict, modelled as a function). -/
structure EnvBook where
  active_task_ids : List ℕ
  task_count : ℕ
  task_info : ℕ → Option FailRecord

/-- The duplicate-id guard at the top of `Env._process_task`: when the
task's id is already a key of `active_tasks`, increment `task_count`, write
`(1, ['DuplicateTaskIdError'], (src, dst))` to the logger under the task's
id, and raise; otherwise fall through (no state change at the guard). -/
def process_task_guard (s : EnvBook) (t : Task) (dst_name : Option String) :
    Option String × EnvBook :=
  if t.id ∈ s.active_task_ids then
    (some "DuplicateTaskIdError",
     { s with task_count := s.task_count + 1,
              task_info := fun k =>
                if k = t.id then
                  some ⟨1, ["DuplicateTaskIdError"], t.src_name, dst_name⟩
                else s.task_info k })
  else (none, s)

/-- The completion drain's removal of a finished task from `activeTasks`
(`del self.active_tasks[task_id]` in `_monitor_done_task_collector`);
dictionary keys are unique, so deletion removes every occurrence. -/
def drainTask (s : EnvBook) (taskId : ℕ) : EnvBook :=
  { s with active_task_ids := s.active_task_ids.filter (· ≠ taskId) }

/-- The busy branch of `Env._handle_task_execution` (destination CPU not
free): `task.allocate(now, dst, pre_allocate=True)` then
`dst.append_task(task)`.  On `InsufficientBufferError` the except-clause
increments `task_count`, logs the failure, and re-raises; the mutations that
`allocate` already made to the task are kept.  Result: the error (if any),
the task, the node, and the bookkeeping state. -/
def handle_task_execution_busy (t : Task) (n : Node) (now : ℚ) (s : EnvBook) :
    Option String × Task × Node × EnvBook :=
  match Task.allocatePre t n now with
  | none => (some "ValueError", t, n, s)
  | some t1 =>
      match n.task_buffer.appendTask t1 with
      | some buf => (none, t1, { n with task_buffer := buf }, s)
      | none =>
          (some "InsufficientBufferError", t1, n,
           { s with task_count := s.task_count + 1,
                    task_info := fun k =>
                      if k = t1.id then
                        some ⟨1, ["InsufficientBufferError"], t1.src_name, t1.dst_name⟩
                      else s.task_info k })

/-! ## Environment reset (`core/env.py`, `Env.reset`) -/

/-- The full environment state the reset claim touches: the scenario's nodes
and links, the keys of `Env.active_tasks`, `task_count`, the logger's two
maps, the completion collector's items and the drained completion list. -/
structure EnvState where
  nodes : List Node
  links : List Link
  active_task_ids : List ℕ
  task_count : ℕ
  task_info : ℕ → Option FailRecord
  node_info : ℕ → Option (List ℚ)
  done_task_collector : List ℕ
  done_task_info : List ℕ

/-- Source `Env.reset`: the first loop iterates over `self.active_tasks.values()`
— which hold `Task` objects, not SimPy processes — and reads
`task_process.is_alive`; `Task` has no such attribute, so with any active
task the loop raises `AttributeError` (modelled as `none`).  With no active
task the loop body never runs and the reset proceeds: clear the active set,
zero `task_count`, reset every node and link (`scenario.reset`), clear the
logger, the collector items and the drained list. -/
def EnvState.reset (s : EnvState) : Option EnvState :=
  match s.active_task_ids with
  | _ :: _ => none
  | [] =>
      some { nodes := s.nodes.map Node.reset,
             links := s.links.map Link.reset,
             active_task_ids := [],
             task_count := 0,
             task_info := fun _ => none,
             node_info := fun _ => none,
             done_task_collector := [],
             done_task_info := [] }

/-- The observable snapshot of a node: free and maximum CPU frequency, free
and maximum buffer size, and the accumulated energy (`CPUStatus`,
`BufferStatus` in `core/node.py` and the node-energy accessors). -/
def Node.statusOf (n : Node) : ℚ × ℚ × ℚ × ℚ × ℚ :=
  (n.free_cpu_freq, n.max_cpu_freq, n.task_buffer.free_size,
   n.task_buffer.max_size, n.energy_consumption)

/-- The observable snapshot of a link: free and maximum bandwidth and the
number of active data flows. -/
def Link.statusOf (l : Link) : ℚ × ℚ × ℕ :=
  (l.free_bandwidth, l.max_bandwidth, l.data_flows.length)

/-- Source `Env.status` over the whole infrastructure: the node snapshots and the
link snapshots. -/
def EnvState.statusOf (s : EnvState) : List (ℚ × ℚ × ℚ × ℚ × ℚ) × List (ℚ × ℚ × ℕ) :=
  (s.nodes.map Node.statusOf, s.links.map Link.statusOf)

/-- The initial environment built from the same static configuration as
`s`: every node and link freshly constructed (`Node.__init__`,
`Link.__init__`), no active tasks, zero counter, empty logger and
collector.  This is the state right after `Env.__init__`. -/
def EnvState.initialOf (s : EnvState) : EnvState :=
  { nodes := s.nodes.map fun n =>
      Node.mk0 n.id n.name n.max_cpu_freq n.task_buffer.max_size
        n.idle_energy_coef n.exe_energy_coef,
    links := s.links.map fun l => Link.mk0 l.max_bandwidth l.base_latency,
    active_task_ids := [],
    task_count := 0,
    task_info := fun _ => none,
    node_info := fun _ => none,
    done_task_collector := [],
    done_task_info := [] }

/-! ## Reachable states

The operations below are exactly the mutations the source performs on each
object during a run.  Flow bit rates and configuration capacities are
nonnegative in the system (they come from task `TransBitRate` and config
`Bandwidth` entries), which the `init`/`add` constructors record. -/

/-- Link states reachable from construction under the source's mutations. -/
inductive LinkReachable : Link → Prop
  | init (max_bandwidth base_latency : ℚ) (h : 0 ≤ max_bandwidth) :
      LinkReachable (Link.mk0 max_bandwidth base_latency)
  | add {l l' : Link} {df : DataFlow} (hr : 0 ≤ df.bit_rate)
      (h : LinkReachable l) (hstep : l.add_data_flow df = some l') :
      LinkReachable l'
  | remove {l l' : Link} {df : DataFlow}
      (h : LinkReachable l) (hstep : l.remove_data_flow df = some l') :
      LinkReachable l'
  | reset {l : Link} (h : LinkReachable l) : LinkReachable l.reset

/-- The link bandwidth-conservation invariant of the claim. -/
def Link.inv (l : Link) : Prop :=
  l.free_bandwidth + l.flowSum = l.max_bandwidth ∧
  0 ≤ l.free_bandwidth ∧ l.free_bandwidth ≤ l.max_bandwidth

/-- Induction-strengthened link invariant: additionally every active flow
has a nonnegative bit rate. -/
def Link.invStrong (l : Link) : Prop :=
  l.inv ∧ ∀ df ∈ l.data_flows, 0 ≤ df.bit_rate

lemma flowSum_append (fs : List DataFlow) (df : DataFlow) :
    ((fs ++ [df]).map DataFlow.bit_rate).sum =
      (fs.map DataFlow.bit_rate).sum + df.bit_rate := by
  simp

lemma flowSum_erase {df : DataFlow} {fs : List DataFlow} (h : df ∈ fs) :
    ((fs.erase df).map DataFlow.bit_rate).sum =
      (fs.map DataFlow.bit_rate).sum - df.bit_rate := by
  have hp : fs.Perm (df :: fs.erase df) := List.perm_cons_erase h
  have hs := (hp.map DataFlow.bit_rate).sum_eq
  simp only [List.map_cons, List.sum_cons] at hs
  linarith

lemma linkReachable_invStrong {l : Link} (h : LinkReachable l) : l.invStrong := by
  induction h with
  | init m lat hm =>
      refine ⟨⟨?_, ?_, ?_⟩, ?_⟩ <;> simp [Link.mk0, Link.flowSum, hm]
  | add hr h hstep ih =>
      rcases ih with ⟨⟨hsum, hlo, hhi⟩, hnn⟩
      rename_i l l' df
      unfold Link.add_data_flow Link.reserve_bandwidth at hstep
      by_cases hg : l.free_bandwidth < df.bit_rate
      · simp [hg] at hstep
      · simp [hg] at hstep
        subst hstep
        push_neg at hg
        refine ⟨⟨?_, ?_, ?_⟩, ?_⟩
        · simp only [Link.flowSum] at hsum ⊢
          rw [flowSum_append]
          linarith
        · simpa using hg
        · simp only []
          linarith
        · intro g hg'
          simp only [List.mem_append, List.mem_singleton] at hg'
          rcases hg' with hg' | hg'
          · exact hnn g hg'
          · subst hg'; exact hr
  | remove h hstep ih =>
      rcases ih with ⟨⟨hsum, hlo, hhi⟩, hnn⟩
      rename_i l l' df
      unfold Link.remove_data_flow Link.release_bandwidth at hstep
      by_cases hg : l.max_bandwidth < l.free_bandwidth + df.bit_rate
      · simp [hg] at hstep
      · simp [hg] at hstep
        by_cases hm : df ∈ l.data_flows
        · simp [hm] at hstep
          subst hstep
          push_neg at hg
          have hdf : 0 ≤ df.bit_rate := hnn df hm
          refine ⟨⟨?_, ?_, ?_⟩, ?_⟩
          · simp only [Link.flowSum] at hsum ⊢
            rw [flowSum_erase hm]
            linarith
          · simp only []
            linarith
          · simpa using hg
          · intro g hg'
            exact hnn g (List.mem_of_mem_erase hg')
        · simp [hm] at hstep
  | reset h ih =>
      rcases ih with ⟨⟨hsum, hlo, hhi⟩, _⟩
      refine ⟨⟨?_, ?_, ?_⟩, ?_⟩ <;> simp [Link.reset, Link.flowSum]
      linarith

/-- Node states reachable from construction under the source's mutations. -/
inductive NodeReachable : Node → Prop
  | init (id : ℕ) (name : String) (max_cpu_freq max_buffer_size ic ec : ℚ) :
      NodeReachable (Node.mk0 id name max_cpu_freq max_buffer_size ic ec)
  | add_task {n n' : Node} {t t' : Task}
      (h : NodeReachable n) (hstep : n.add_task t = some (n', t')) :
      NodeReachable n'
  | remove_task {n n' : Node} {t : Task}
      (h : NodeReachable n) (hstep : n.remove_task t = some n') :
      NodeReachable n'
  | append_task {n : Node} {t : Task} {b' : Buffer}
      (h : NodeReachable n) (hstep : n.task_buffer.appendTask t = some b') :
      NodeReachable { n with task_buffer := b' }
  | pop_task {n : Node} (h : NodeReachable n) :
      NodeReachable { n with task_buffer := (n.task_buffer.pop).2 }
  | tick {n : Node} (h : NodeReachable n) :
      NodeReachable (track_node_energy_tick n)
  | reset {n : Node} (h : NodeReachable n) : NodeReachable n.reset

/-- Induction-strengthened CPU invariant: the node is either idle with no
active task, or busy with exactly one. -/
def Node.cpuInv (n : Node) : Prop :=
  (n.free_cpu_freq = n.max_cpu_freq ∧ n.active_tasks = []) ∨
  (n.free_cpu_freq = 0 ∧ n.active_tasks.length = 1)

lemma nodeReachable_cpuInv {n : Node} (h : NodeReachable n) : n.cpuInv := by
  induction h with
  | init id name mc mb ic ec => exact Or.inl ⟨rfl, rfl⟩
  | add_task h hstep ih =>
      rename_i n n' t t'
      unfold Node.add_task Node.reserve_resource at hstep
      by_cases hg : 0 < n.free_cpu_freq
      · simp [hg] at hstep
        rcases ih with ⟨hf, ha⟩ | ⟨hf, _⟩
        · refine Or.inr ?_
          rcases hstep with ⟨hn', _⟩
          subst hn'
          simp [ha]
        · exact absurd hg (by simp [hf])
      · simp [hg] at hstep
  | remove_task h hstep ih =>
      rename_i n n' t
      unfold Node.remove_task Node.release_resource at hstep
      by_cases hg : n.free_cpu_freq = 0
      · simp [hg] at hstep
        rcases ih with ⟨hf, ha⟩ | ⟨hf, hone⟩
        · simp [ha] at hstep
        · by_cases hm : t ∈ n.active_tasks
          · simp [hm] at hstep
            subst hstep
            refine Or.inl ⟨rfl, ?_⟩
            rcases hl : n.active_tasks with _ | ⟨t₀, rest⟩
            · simp [hl]
            · have : rest = [] := by
                have := hone
                rw [hl] at this
                simpa using this
              subst this
              rw [hl] at hm
              simp at hm
              subst hm
              simp [hl]
          · simp [hm] at hstep
      · simp [hg] at hstep
  | append_task h hstep ih =>
      rcases ih with ⟨hf, ha⟩ | ⟨hf, hone⟩
      · exact Or.inl ⟨hf, ha⟩
      · exact Or.inr ⟨hf, hone⟩
  | pop_task h ih =>
      rcases ih with ⟨hf, ha⟩ | ⟨hf, hone⟩
      · exact Or.inl ⟨hf, ha⟩
      · exact Or.inr ⟨hf, hone⟩
  | tick h ih =>
      rcases ih with ⟨hf, ha⟩ | ⟨hf, hone⟩
      · exact Or.inl ⟨hf, ha⟩
      · exact Or.inr ⟨hf, hone⟩
  | reset h ih => exact Or.inl ⟨rfl, rfl⟩

/-- Buffer states reachable from construction under the source's mutations. -/
inductive BufferReachable : Buffer → Prop
  | init (max_size : ℚ) : BufferReachable (Buffer.mk0 max_size)
  | append {b b' : Buffer} {t : Task}
      (h : BufferReachable b) (hstep : b.appendTask t = some b') :
      BufferReachable b'
  | pop {b : Buffer} (h : BufferReachable b) : BufferReachable (b.pop).2
  | reset {b : Buffer} (h : BufferReachable b) : BufferReachable b.reset

/-- Sum of the sizes of the queued tasks. -/
def Buffer.sizeSum (b : Buffer) : ℚ :=
  (b.buffer.map Task.task_size).sum

lemma bufferReachable_inv {b : Buffer} (h : BufferReachable b) :
    b.free_size + b.sizeSum = b.max_size := by
  induction h with
  | init m => simp [Buffer.mk0, Buffer.sizeSum]
  | append h hstep ih =>
      rename_i b b' t
      unfold Buffer.appendTask at hstep
      by_cases hg : t.task_size ≤ b.free_size
      · simp [hg] at hstep
        subst hstep
        simp only [Buffer.sizeSum, List.map_append, List.sum_append,
          List.map_cons, List.map_nil, List.sum_cons, List.sum_nil] at ih ⊢
        linarith [ih]
      · simp [hg] at hstep
  | pop h ih =>
      rename_i b
      rcases hl : b.buffer with _ | ⟨t, rest⟩
      · simpa [Buffer.pop, hl] using ih
      · simp only [Buffer.pop, hl]
        simp only [Buffer.sizeSum, hl, List.map_cons, List.sum_cons] at ih
        simp only [Buffer.sizeSum]
        linarith [ih]
  | reset h ih => simp [Buffer.reset, Buffer.sizeSum]

/-- Repeatedly pop a buffer, collecting the returned tasks in order. -/
def Buffer.popList : Buffer → ℕ → List Task
  | _, 0 => []
  | b, n + 1 =>
      match b.pop with
      | (some t, b') => t :: b'.popList n
      | (none, _) => []

lemma popList_eq_buffer : ∀ (l : List Task) (b : Buffer), b.buffer = l →
    b.popList l.length = l := by
  intro l
  induction l with
  | nil => intro b hb; simp [Buffer.popList]
  | cons t rest ih =>
      intro b hb
      simp only [List.length_cons, Buffer.popList, Buffer.pop, hb]
      congr 1
      exact ih _ rfl

/-! ## Claim theorems -/

/-- C5: For every Link at every reachable state, `freeBandwidth` plus the
sum of `bitRate` over its active data flows equals `maxBandwidth`, and
`0 ≤ freeBandwidth ≤ maxBandwidth`; the invariant is preserved by adding a
flow, removing a flow, and reset (these are exactly the reachability
steps). -/
theorem claim_C5_link_invariant (l : Link) (h : LinkReachable l) :
    l.free_bandwidth + l.flowSum = l.max_bandwidth ∧
    0 ≤ l.free_bandwidth ∧ l.free_bandwidth ≤ l.max_bandwidth :=
  (linkReachable_invStrong h).1

/-- Witness for C5: a concrete reachable link (fresh link of capacity 100
with one flow of rate 30 added) satisfies the invariant. -/
theorem claim_C5_witness :
    (Link.mk 100 0 70 [⟨30⟩]).free_bandwidth + (Link.mk 100 0 70 [⟨30⟩]).flowSum =
        (Link.mk 100 0 70 [⟨30⟩]).max_bandwidth ∧
    0 ≤ (Link.mk 100 0 70 [⟨30⟩]).free_bandwidth ∧
    (Link.mk 100 0 70 [⟨30⟩]).free_bandwidth ≤ (Link.mk 100 0 70 [⟨30⟩]).max_bandwidth :=
  claim_C5_link_invariant _
    (@LinkReachable.add (Link.mk0 100 0) (Link.mk 100 0 70 [⟨30⟩]) ⟨30⟩
      (by norm_num)
      (LinkReachable.init 100 0 (by norm_num))
      (by simp [Link.mk0, Link.add_data_flow, Link.reserve_bandwidth]; norm_num))

/-- C6: at every reachable node state `freeCPUHz ∈ {0, maxCPUHz}` and at
most one task is active; `_reserve_resource` succeeds exactly when
`freeCPUHz > 0`, assigning the node's free frequency to the task's
`cpu_freq` and zeroing `freeCPUHz`; `_release_resource` succeeds exactly
when `freeCPUHz = 0`, restoring `freeCPUHz = maxCPUHz`. -/
theorem claim_C6_node_cpu (n : Node) (t : Task) :
    (NodeReachable n →
      (n.free_cpu_freq = 0 ∨ n.free_cpu_freq = n.max_cpu_freq) ∧
      n.active_tasks.length ≤ 1) ∧
    (0 < n.free_cpu_freq →
      n.reserve_resource t =
        some ({ n with free_cpu_freq := 0 }, { t with cpu_freq := n.free_cpu_freq })) ∧
    (¬ 0 < n.free_cpu_freq → n.reserve_resource t = none) ∧
    (n.free_cpu_freq = 0 →
      n.release_resource = some { n with free_cpu_freq := n.max_cpu_freq }) ∧
    (n.free_cpu_freq ≠ 0 → n.release_resource = none) := by
  refine ⟨?_, ?_, ?_, ?_, ?_⟩
  · intro h
    rcases nodeReachable_cpuInv h with ⟨hf, ha⟩ | ⟨hf, hone⟩
    · exact ⟨Or.inr hf, by simp [ha]⟩
    · exact ⟨Or.inl hf, by simp [hone]⟩
  · intro h; simp [Node.reserve_resource, h]
  · intro h; simp [Node.reserve_resource, h]
  · intro h; simp [Node.release_resource, h]
  · intro h; simp [Node.release_resource, h]

/-- Witness for C6: the freshly constructed node of CPU capacity 100
satisfies the CPU invariant. -/
theorem claim_C6_witness :
    ((Node.mk0 0 "n0" 100 50 0 0).free_cpu_freq = 0 ∨
      (Node.mk0 0 "n0" 100 50 0 0).free_cpu_freq =
        (Node.mk0 0 "n0" 100 50 0 0).max_cpu_freq) ∧
    (Node.mk0 0 "n0" 100 50 0 0).active_tasks.length ≤ 1 :=
  (claim_C6_node_cpu (Node.mk0 0 "n0" 100 50 0 0)
      (Task.mk0 1 10 1 2 "n0" 10)).1
    (NodeReachable.init 0 "n0" 100 50 0 0)

/-- C7: at every reachable buffer state `freeSize + Σ taskSize(queued) =
maxSize`; `append` fails exactly when `taskSize > freeSize` and otherwise
enqueues at the back; draining pops the tasks in exactly the queued order
(FIFO); `pop` on an empty buffer returns `none`. -/
theorem claim_C7_buffer_fifo (b : Buffer) (t : Task) :
    (BufferReachable b → b.free_size + b.sizeSum = b.max_size) ∧
    (b.appendTask t = none ↔ b.free_size < t.task_size) ∧
    (∀ b', b.appendTask t = some b' → b'.buffer = b.buffer ++ [t]) ∧
    b.popList b.buffer.length = b.buffer ∧
    (b.buffer = [] → (b.pop).1 = none) := by
  refine ⟨fun h => bufferReachable_inv h, ?_, ?_, popList_eq_buffer _ b rfl, ?_⟩
  · unfold Buffer.appendTask
    by_cases hg : t.task_size ≤ b.free_size
    · simp [hg]
    · simp [hg]
      linarith [not_le.mp hg]
  · intro b' hb'
    unfold Buffer.appendTask at hb'
    by_cases hg : t.task_size ≤ b.free_size
    · simp [hg] at hb'
      subst hb'
      rfl
    · simp [hg] at hb'
  · intro h
    simp [Buffer.pop, h]

/-- Witness for C7: the fresh buffer of capacity 100 is reachable and
satisfies the conservation equality. -/
theorem claim_C7_witness :
    (Buffer.mk0 100).free_size + (Buffer.mk0 100).sizeSum = (Buffer.mk0 100).max_size :=
  (claim_C7_buffer_fifo (Buffer.mk0 100) (Task.mk0 1 10 1 2 "n0" 10)).1
    (BufferReachable.init 100)

/-- C8: a Submit whose task id is already in the active set fails
immediately with `DuplicateTaskIdError`, increments the processed-task
counter, and writes a failure record for that id to the logger; a task id
not in the currently active set passes the guard unchanged — in particular
after the completion drain deletes an id from `active_tasks`
(`del self.active_tasks[task_id]`), a resubmission of the same id is
accepted. -/
theorem claim_C8_duplicate_guard (s : EnvBook) (t : Task) (dst : Option String) :
    (t.id ∈ s.active_task_ids →
      (process_task_guard s t dst).1 = some "DuplicateTaskIdError" ∧
      (process_task_guard s t dst).2.task_count = s.task_count + 1 ∧
      (process_task_guard s t dst).2.task_info t.id =
        some ⟨1, ["DuplicateTaskIdError"], t.src_name, dst⟩) ∧
    (t.id ∉ s.active_task_ids → process_task_guard s t dst = (none, s)) ∧
    process_task_guard (drainTask s t.id) t dst = (none, drainTask s t.id) := by
  refine ⟨?_, ?_, ?_⟩
  · intro h
    simp [process_task_guard, h]
  · intro h
    simp [process_task_guard, h]
  · have h : t.id ∉ (drainTask s t.id).active_task_ids := by
      simp [drainTask]
    simp [process_task_guard, h]

/-- Witness for C8: with id 4 active, submitting task id 4 fails with the
duplicate error, bumps the counter from 2 to 3, and logs the failure. -/
theorem claim_C8_witness :
    (process_task_guard ⟨[4], 2, fun _ => none⟩ (Task.mk0 4 10 1 2 "n0" 10) (some "n1")).1 =
        some "DuplicateTaskIdError" ∧
    (process_task_guard ⟨[4], 2, fun _ => none⟩ (Task.mk0 4 10 1 2 "n0" 10) (some "n1")).2.task_count = 3 ∧
    (process_task_guard ⟨[4], 2, fun _ => none⟩ (Task.mk0 4 10 1 2 "n0" 10) (some "n1")).2.task_info 4 =
        some ⟨1, ["DuplicateTaskIdError"], "n0", some "n1"⟩ :=
  (claim_C8_duplicate_guard ⟨[4], 2, fun _ => none⟩ (Task.mk0 4 10 1 2 "n0" 10)
      (some "n1")).1 (by decide)

/-- C10: when the destination CPU is busy and the buffer rejects the task,
the failure is not atomic on the Task object: the busy branch of
`_handle_task_execution` first pre-allocates the destination (setting
`dst`/`dst_id`/`dst_name` and stamping `wait_time` with the enqueue time)
and the `InsufficientBufferError` path never undoes it, so any later
`_allocate_dst`/`_pre_allocate_dst` on that task raises the already-placed
`ValueError`. -/
theorem claim_C10_insufficient_buffer_nonatomic (t : Task) (n : Node) (now : ℚ)
    (s : EnvBook) (hdst : t.dst_id = none)
    (hbuf : n.task_buffer.free_size < t.task_size) :
    (handle_task_execution_busy t n now s).1 = some "InsufficientBufferError" ∧
    (handle_task_execution_busy t n now s).2.1.dst_id = some n.id ∧
    (handle_task_execution_busy t n now s).2.1.dst_name = some n.name ∧
    (handle_task_execution_busy t n now s).2.1.wait_time = now ∧
    (handle_task_execution_busy t n now s).2.2.2.task_count = s.task_count + 1 ∧
    (∀ m : Node, ((handle_task_execution_busy t n now s).2.1).pre_allocate_dst m = none) ∧
    (∀ m : Node, ((handle_task_execution_busy t n now s).2.1).allocate_dst m = none) := by
  have hpre : Task.allocatePre t n now =
      some { t with wait_time := now, dst_id := some n.id, dst_name := some n.name } := by
    simp [Task.allocatePre, Task.pre_allocate_dst, hdst]
  have happ : n.task_buffer.appendTask
      { t with wait_time := now, dst_id := some n.id, dst_name := some n.name } = none := by
    simp only [Buffer.appendTask]
    rw [if_neg]
    exact not_le.mpr hbuf
  simp [handle_task_execution_busy, hpre, happ, Task.pre_allocate_dst, Task.allocate_dst]

/-- Witness for C10: a concrete task of size 10 sent to a busy node whose
buffer has only 5 bits free is rejected with `InsufficientBufferError` yet
keeps its destination pre-allocation, so re-allocating it anywhere fails. -/
theorem claim_C10_witness :
    (handle_task_execution_busy (Task.mk0 7 10 1 2 "n0" 10)
        { Node.mk0 1 "n1" 100 5 0 0 with free_cpu_freq := 0 } 42 ⟨[], 0, fun _ => none⟩).1 =
      some "InsufficientBufferError" ∧
    (handle_task_execution_busy (Task.mk0 7 10 1 2 "n0" 10)
        { Node.mk0 1 "n1" 100 5 0 0 with free_cpu_freq := 0 } 42 ⟨[], 0, fun _ => none⟩).2.1.dst_id =
      some 1 ∧
    (handle_task_execution_busy (Task.mk0 7 10 1 2 "n0" 10)
        { Node.mk0 1 "n1" 100 5 0 0 with free_cpu_freq := 0 } 42 ⟨[], 0, fun _ => none⟩).2.1.dst_name =
      some "n1" ∧
    (handle_task_execution_busy (Task.mk0 7 10 1 2 "n0" 10)
        { Node.mk0 1 "n1" 100 5 0 0 with free_cpu_freq := 0 } 42 ⟨[], 0, fun _ => none⟩).2.1.wait_time =
      42 := by
  have h := claim_C10_insufficient_buffer_nonatomic (Task.mk0 7 10 1 2 "n0" 10)
    { Node.mk0 1 "n1" 100 5 0 0 with free_cpu_freq := 0 } 42 ⟨[], 0, fun _ => none⟩
    (by decide) (by norm_num [Node.mk0, Buffer.mk0, Task.mk0])
  exact ⟨h.1, h.2.1, h.2.2.1, h.2.2.2.1⟩

lemma tick_iterate_idle : ∀ (k : ℕ) (n : Node),
    n.free_cpu_freq = n.max_cpu_freq →
    ((track_node_energy_tick)^[k] n).energy_consumption =
      n.energy_consumption + k * n.idle_energy_coef
  | 0, n, _ => by simp
  | k + 1, n, h => by
      have h2 : (track_node_energy_tick n).free_cpu_freq =
          (track_node_energy_tick n).max_cpu_freq := h
      rw [Function.iterate_succ_apply, tick_iterate_idle k _ h2]
      simp [track_node_energy_tick, h]
      ring

/-- C2 counterexample: for the idle node of S6 (`idleCoef = 0.01`,
`maxCPUHz = 100`), one energy tick does not increase `energyConsumed` by
`idleCoef × refreshRate × maxCPUHz = 1` — the code adds only
`idleCoef = 0.01` (plus the execution term, zero when idle). -/
theorem claim_C2_counterexample :
    ¬ ((track_node_energy_tick (Node.mk0 0 "e0" 100 0 (1/100) (2/5))).energy_consumption =
        (Node.mk0 0 "e0" 100 0 (1/100) (2/5)).energy_consumption + (1/100) * 1 * 100) := by
  simp only [track_node_energy_tick, Node.mk0]
  norm_num

/-- C2 amended: at each energy tick a node's `energyConsumed` increases by
`idleCoef + exeCoef × (maxCPUHz − freeCPUHz)³` (and `totalCPUHz` by the
used frequency, `clock` by one); consequently a single idle node with
`idleCoef = 0.01` and `maxCPUHz = 100` that runs 100 seconds with no tasks
accrues energy `100 × 0.01 = 1` before division by `energyUnit`. -/
theorem claim_C2_amended (n : Node) :
    (track_node_energy_tick n).energy_consumption =
      n.energy_consumption + n.idle_energy_coef +
        n.exe_energy_coef * (n.max_cpu_freq - n.free_cpu_freq) ^ 3 ∧
    (track_node_energy_tick n).total_cpu_freq =
      n.total_cpu_freq + (n.max_cpu_freq - n.free_cpu_freq) ∧
    (track_node_energy_tick n).clock = n.clock + 1 ∧
    ((track_node_energy_tick)^[100] (Node.mk0 0 "e0" 100 0 (1/100) (2/5))).energy_consumption = 1 := by
  refine ⟨rfl, rfl, rfl, ?_⟩
  rw [tick_iterate_idle 100 _ (by simp [Node.mk0])]
  norm_num [Node.mk0]

/-- The concrete reactivation scenario for C3: a task of size 10 with
deadline 10 and zero transmission time, pre-allocated to node 3 with its
`wait_time` stamped 0, popped from the buffer and reactivated at `now = 20`
(elapsed wait 20 > deadline 10). -/
def taskC3 : Task :=
  { Task.mk0 9 10 1 2 "n0" 10 with
    trans_time := 0, wait_time := 0,
    dst_id := some 3, dst_name := some "n1" }

/-- The destination node for the C3 scenario: idle, CPU capacity 100. -/
def nodeC3 : Node := Node.mk0 3 "n1" 100 0 0 0

/-- C3: the source has no deadline check at reactivation.  At the failing
input (elapsed wait `now − stamp + transTime = 20` exceeds `ddl = 10`) the
reactivated task is admitted and executes anyway: `Task.allocate(now)`
succeeds, assigns the CPU and an execution time, and the completion is
later recorded with `ddl_ok = False` instead of a `Timeout` failure. -/
theorem claim_C3_timeout_missing :
    Task.allocateReactive taskC3 nodeC3 20 =
      some ({ taskC3 with wait_time := 20, cpu_freq := 100, exe_time := 1/10 },
            { nodeC3 with
              free_cpu_freq := 0,
              active_tasks := [{ taskC3 with wait_time := 20, cpu_freq := 100 }],
              active_task_ids := [9] }) ∧
    (20 : ℚ) > taskC3.ddl ∧
    user_defined_info { taskC3 with wait_time := 20, cpu_freq := 100, exe_time := 1/10 } = false := by
  refine ⟨?_, ?_, ?_⟩
  · simp [Task.allocateReactive, Node.add_task, Node.reserve_resource,
      taskC3, nodeC3, Task.mk0, Node.mk0]
    norm_num
  · norm_num [taskC3, Task.mk0]
  · norm_num [user_defined_info, taskC3, Task.mk0]

/-- A concrete environment state with one executing task (id 5): the shape
`Env.reset` meets mid-run whenever a task is being executed. -/
def busyEnvC9 : EnvState :=
  { nodes := [{ (Node.mk0 0 "n0" 100 20 0 0) with free_cpu_freq := 0 }],
    links := [Link.mk 100 0 70 [⟨30⟩]],
    active_task_ids := [5],
    task_count := 3,
    task_info := fun _ => none,
    node_info := fun _ => none,
    done_task_collector := [],
    done_task_info := [] }

lemma node_reset_eq_mk0 (n : Node) :
    n.reset = Node.mk0 n.id n.name n.max_cpu_freq n.task_buffer.max_size
      n.idle_energy_coef n.exe_energy_coef := by
  rcases n with ⟨id, name, mc, fc, tb, e, ic, ec, at', ati, tot, ck⟩
  rcases tb with ⟨ms, fs, buf, tis⟩
  rfl

lemma link_reset_eq_mk0 (l : Link) :
    l.reset = Link.mk0 l.max_bandwidth l.base_latency := by
  rcases l with ⟨mb, bl, fb, dfs⟩
  rfl

/-- C9: `Env.reset` iterates over `active_tasks.values()` — `Task`
objects — and reads `task_process.is_alive`, an attribute `Task` does not
have, so from any state with an executing task the reset raises
`AttributeError` and restores nothing.  From states with no active task
the reset does hold: it returns exactly the initial environment of the
same static configuration, so the status snapshot, logger and collector
all match the initial ones. -/
theorem claim_C9_reset_roundtrip :
    EnvState.reset busyEnvC9 = none ∧
    (∀ s : EnvState, s.active_task_ids = [] →
      s.reset = some s.initialOf ∧
      (s.initialOf).statusOf =
        (s.nodes.map fun n => (n.max_cpu_freq, n.max_cpu_freq,
          n.task_buffer.max_size, n.task_buffer.max_size, (0 : ℚ)),
         s.links.map fun l => (l.max_bandwidth, l.max_bandwidth, (0 : ℕ)))) := by
  refine ⟨rfl, ?_⟩
  intro s hs
  refine ⟨?_, ?_⟩
  · rcases s with ⟨nodes, links, active, cnt, ti, ni, coll, dti⟩
    simp only at hs
    subst hs
    simp only [EnvState.reset, EnvState.initialOf, Option.some_inj]
    refine congrArg₂ (fun a b => EnvState.mk a b [] 0 (fun _ => none) (fun _ => none) [] []) ?_ ?_
    · exact List.map_congr_left fun n _ => node_reset_eq_mk0 n
    · exact List.map_congr_left fun l _ => link_reset_eq_mk0 l
  · simp [EnvState.initialOf, EnvState.statusOf, Node.statusOf, Link.statusOf,
      Node.mk0, Link.mk0, Buffer.mk0]

/-- Witness for C9: resetting a concrete idle one-node environment yields
exactly the initial environment of its configuration. -/
theorem claim_C9_witness :
    ({ busyEnvC9 with active_task_ids := [] } : EnvState).reset =
      some ({ busyEnvC9 with active_task_ids := [] } : EnvState).initialOf :=
  ((claim_C9_reset_roundtrip).2 { busyEnvC9 with active_task_ids := [] } rfl).1

lemma pathBaseLatencySum_allLinks : ∀ (path : List PathElem),
    (∀ e ∈ path, e.isLink = true) →
    pathBaseLatencySum path =
      some (path.map fun e =>
        match e with | .link l => l.base_latency | .token _ _ => 0).sum
  | [], _ => by simp [pathBaseLatencySum]
  | .link l :: rest, h => by
      rw [pathBaseLatencySum,
        pathBaseLatencySum_allLinks rest (fun e he => h e (by simp [he]))]
      simp
  | .token a b :: rest, h => by
      have hh := h (.token a b) (List.mem_cons_self _ _)
      simp [PathElem.isLink] at hh

lemma pairwiseLinks_allLinks (lookup : String → String → Link) :
    ∀ (sp : List String), ∀ e ∈ pairwiseLinks lookup sp, e.isLink = true
  | [] => by simp [pairwiseLinks]
  | [_] => by simp [pairwiseLinks]
  | a :: b :: rest => by
      intro e he
      rw [pairwiseLinks] at he
      rcases List.mem_cons.mp he with rfl | he
      · rfl
      · exact pairwiseLinks_allLinks lookup (b :: rest) e he

/-- C1 counterexample: for a wireless source `w0` anchored at wired node
`a`, `get_shortest_links` returns the path
`[("w0","a"), Link a→b]`; the source's transmission-time loop reads
`link.base_latency` on the synthetic token (an `AttributeError`, `none`
here) instead of assigning
`Σ baseLatency + (taskSize/transBitRate) × wiredHopCount = 1`; moreover
`len(links_in_path)` would count the token as a hop.  So the claimed
equation does not hold for this ShortestLinks path. -/
theorem claim_C1_counterexample :
    get_shortest_wireless_links ⟨"w0", true, some "a"⟩ ⟨"b", false, none⟩
        (fun _ _ => Link.mk0 100 0) ["a", "b"] =
      some [.token "w0" "a", .link (Link.mk0 100 0)] ∧
    transTimeOf [.token "w0" "a", .link (Link.mk0 100 0)] 20 20 = none ∧
    specTransTime [.token "w0" "a", .link (Link.mk0 100 0)] 20 20 = 1 ∧
    transTimeOf [.token "w0" "a", .link (Link.mk0 100 0)] 20 20 ≠
      some (specTransTime [.token "w0" "a", .link (Link.mk0 100 0)] 20 20) := by
  refine ⟨rfl, rfl, ?_, ?_⟩
  · norm_num [specTransTime, Link.mk0, PathElem.isLink]
  · simp [transTimeOf, pathBaseLatencySum]

/-- C1 amended: for every path consisting solely of wired links — in
particular every path returned by the standard (non-wireless) branch of
`get_shortest_links` — the assigned transmission time equals
`Σ baseLatency(link) + (taskSize / transBitRate) × hopCount` with
`hopCount` the number of links of the path.  (When the path contains a
synthetic wireless token the computation instead fails with an attribute
error on the token, and the hop factor `len(links_in_path)` would count
the token, so the zero-cost pass-through of the claim does not hold.) -/
theorem claim_C1_trans_time_wired (path : List PathElem)
    (task_size trans_bit_rate : ℚ) (h : ∀ e ∈ path, e.isLink = true) :
    transTimeOf path task_size trans_bit_rate =
      some (specTransTime path task_size trans_bit_rate) ∧
    specTransTime path task_size trans_bit_rate =
      (path.map fun e =>
        match e with | .link l => l.base_latency | .token _ _ => 0).sum +
        task_size / trans_bit_rate * path.length ∧
    ∀ (lookup : String → String → Link) (sp : List String),
      ∀ e ∈ pairwiseLinks lookup sp, e.isLink = true := by
  have hfilter : path.filter PathElem.isLink = path := List.filter_eq_self.mpr h
  refine ⟨?_, ?_, fun lookup sp => pairwiseLinks_allLinks lookup sp⟩
  · rw [transTimeOf, pathBaseLatencySum_allLinks path h]
    simp [specTransTime, hfilter]
  · rw [specTransTime, hfilter]

/-- Witness for C1 (amended): a concrete two-link wired path with base
latencies 2 and 3, task size 20 and bit rate 20 yields transmission time
`5 + 1 × 2 = 7`. -/
theorem claim_C1_witness :
    transTimeOf [.link (Link.mk0 100 2), .link (Link.mk0 50 3)] 20 20 =
      some (specTransTime [.link (Link.mk0 100 2), .link (Link.mk0 50 3)] 20 20) ∧
    specTransTime [.link (Link.mk0 100 2), .link (Link.mk0 50 3)] 20 20 = 7 := by
  have h := claim_C1_trans_time_wired
    [.link (Link.mk0 100 2), .link (Link.mk0 50 3)] 20 20
    (by intro e he; rcases List.mem_cons.mp he with rfl | he
        · rfl
        · rcases List.mem_cons.mp he with rfl | he
          · rfl
          · simp at he)
  refine ⟨h.1, ?_⟩
  rw [h.2.1]
  norm_num [Link.mk0]

/-- The per-link effect of placing a flow `df`. -/
def addFlowTo (df : DataFlow) (l : Link) : Link :=
  { l with free_bandwidth := l.free_bandwidth - df.bit_rate,
           data_flows := l.data_flows ++ [df] }

lemma allocateFlow_sufficient (df : DataFlow) : ∀ (path : List ℕ) (links : List Link),
    (∀ i ∈ path, ∀ l, links[i]? = some l → df.bit_rate ≤ l.free_bandwidth) →
    path.Nodup → (∀ i ∈ path, i < links.length) →
    (allocateFlow df links path).2 = true ∧
    ∀ j : ℕ, (allocateFlow df links path).1[j]? =
      if j ∈ path then links[j]?.map (addFlowTo df) else links[j]?
  | [], links, _, _, _ => by
      refine ⟨rfl, fun j => ?_⟩
      simp [allocateFlow]
  | i :: rest, links, hsuff, hnodup, hvalid => by
      have hi : i < links.length := hvalid i (List.mem_cons_self _ _)
      have hl : links[i]? = some links[i] := List.getElem?_eq_getElem hi
      have hfree : df.bit_rate ≤ links[i].free_bandwidth :=
        hsuff i (List.mem_cons_self _ _) links[i] hl
      have hadd : (links[i]).add_data_flow df = some (addFlowTo df links[i]) := by
        simp [Link.add_data_flow, Link.reserve_bandwidth, not_lt.mpr hfree, addFlowTo]
      have hstep : allocateFlow df links (i :: rest) =
          allocateFlow df (links.set i (addFlowTo df links[i])) rest := by
        simp only [allocateFlow, hl, hadd]
      have hnotmem : i ∉ rest := (List.nodup_cons.mp hnodup).1
      have ih := allocateFlow_sufficient df rest (links.set i (addFlowTo df links[i]))
        (fun k hk l₀ hl₀ => by
          have hne : i ≠ k := fun he => hnotmem (he ▸ hk)
          rw [List.getElem?_set_ne hne] at hl₀
          exact hsuff k (List.mem_cons_of_mem _ hk) l₀ hl₀)
        (List.nodup_cons.mp hnodup).2
        (fun k hk => by
          rw [List.length_set]
          exact hvalid k (List.mem_cons_of_mem _ hk))
      refine ⟨by rw [hstep]; exact ih.1, fun j => ?_⟩
      rw [hstep, ih.2 j]
      by_cases hji : j = i
      · subst hji
        have hjr : j ∉ rest := hnotmem
        simp only [hjr, if_false, List.mem_cons, true_or, if_true]
        rw [List.getElem?_set_eq_of_lt _ hi, hl]
        rfl
      · have hset : (links.set i (addFlowTo df links[i]))[j]? =
            links[j]? := List.getElem?_set_ne (fun he => hji he.symm)
        by_cases hjr : j ∈ rest
        · simp only [hjr, if_true, List.mem_cons, or_true, hset]
        · simp [hjr, hji, hset]

/-- C4: placement of a task's data flow on a path is atomic.  If some link
of the path has `free_bandwidth < trans_bit_rate` the congestion check
fires: the handler returns `NetCongestionError` with every link unchanged.
If every link of the (duplicate-free, in-range) path has enough free
bandwidth, the handler succeeds and the flow is placed on every link of the
path — each one loses `trans_bit_rate` of free bandwidth and gains the
flow — while links off the path are untouched. -/
theorem claim_C4_atomic_placement (links : List Link) (path : List ℕ) (rate : ℚ) :
    (congested links path rate = true →
      handleTransmissionBandwidth links path rate = (some "NetCongestionError", links)) ∧
    (congested links path rate = false → path.Nodup →
      (∀ i ∈ path, i < links.length) →
      (handleTransmissionBandwidth links path rate).1 = none ∧
      ∀ j : ℕ, (handleTransmissionBandwidth links path rate).2[j]? =
        if j ∈ path then links[j]?.map (addFlowTo ⟨rate⟩)
        else links[j]?) := by
  constructor
  · intro hcon
    simp [handleTransmissionBandwidth, hcon]
  · intro hcon hnodup hvalid
    have hsuff : ∀ i ∈ path, ∀ l, links[i]? = some l →
        (⟨rate⟩ : DataFlow).bit_rate ≤ l.free_bandwidth := by
      intro i hi l hl
      have := List.any_eq_false.mp (by simpa [congested] using hcon) i hi
      rw [hl] at this
      simpa using this
    have halloc := allocateFlow_sufficient ⟨rate⟩ path links hsuff hnodup hvalid
    constructor
    · simp [handleTransmissionBandwidth, hcon, halloc.1]
    · intro j
      simp only [handleTransmissionBandwidth, hcon, Bool.false_eq_true, if_false,
        halloc.1, if_true]
      exact halloc.2 j

/-- Witness for C4: on a two-link network with free bandwidths 100 and 50,
placing a rate-30 flow on the path `[0, 1]` succeeds and charges both
links. -/
theorem claim_C4_witness :
    (handleTransmissionBandwidth [Link.mk0 100 0, Link.mk0 50 2] [0, 1] 30).1 = none ∧
    (handleTransmissionBandwidth [Link.mk0 100 0, Link.mk0 50 2] [0, 1] 30).2[0]? =
      (if 0 ∈ [0, 1] then
        ([Link.mk0 100 0, Link.mk0 50 2][0]?.map (addFlowTo ⟨30⟩))
       else [Link.mk0 100 0, Link.mk0 50 2][0]?) := by
  have h := (claim_C4_atomic_placement [Link.mk0 100 0, Link.mk0 50 2] [0, 1] 30).2
    (by norm_num [congested, Link.mk0])
    (by norm_num)
    (by intro i hi; fin_cases hi <;> norm_num)
  exact ⟨h.1, h.2 0⟩

end RayCloudSim
